import Mathlib

/-!
Shallow embedding of the jobstackParser repository (app.py, resume_parser.py,
user_service.py) and proofs about the claims concerning its caching pipeline.

Conventions of the embedding:
* Python `bytes` payloads are `List Nat` whose entries are byte values (< 256).
* `hashlib.md5(...).hexdigest()` is embedded as a full MD5 implementation
  over `Nat` arithmetic with explicit `% 2^32` reductions.
* The in-process dict cache is an association list in insertion order
  (Python 3.7+ dicts preserve insertion order).
-/

set_option maxRecDepth 100000

namespace Jobstack

/-- Bit mask for 32-bit words, `2^32 - 1`. -/
def mask32 : Nat := 4294967295

/-- 32-bit left rotation. -/
def rotl32 (x s : Nat) : Nat := ((x <<< s) ||| (x >>> (32 - s))) % 4294967296

/-- 32-bit complement (for inputs below `2^32`). -/
def not32 (x : Nat) : Nat := mask32 ^^^ x

/-- MD5 sine-derived constant table `K[0..63]` (RFC 1321). -/
def md5K : List Nat :=
  [0xd76aa478, 0xe8c7b756, 0x242070db, 0xc1bdceee,
   0xf57c0faf, 0x4787c62a, 0xa8304613, 0xfd469501,
   0x698098d8, 0x8b44f7af, 0xffff5bb1, 0x895cd7be,
   0x6b901122, 0xfd987193, 0xa679438e, 0x49b40821,
   0xf61e2562, 0xc040b340, 0x265e5a51, 0xe9b6c7aa,
   0xd62f105d, 0x02441453, 0xd8a1e681, 0xe7d3fbc8,
   0x21e1cde6, 0xc33707d6, 0xf4d50d87, 0x455a14ed,
   0xa9e3e905, 0xfcefa3f8, 0x676f02d9, 0x8d2a4c8a,
   0xfffa3942, 0x8771f681, 0x6d9d6122, 0xfde5380c,
   0xa4beea44, 0x4bdecfa9, 0xf6bb4b60, 0xbebfbc70,
   0x289b7ec6, 0xeaa127fa, 0xd4ef3085, 0x04881d05,
   0xd9d4d039, 0xe6db99e5, 0x1fa27cf8, 0xc4ac5665,
   0xf4292244, 0x432aff97, 0xab9423a7, 0xfc93a039,
   0x655b59c3, 0x8f0ccc92, 0xffeff47d, 0x85845dd1,
   0x6fa87e4f, 0xfe2ce6e0, 0xa3014314, 0x4e0811a1,
   0xf7537e82, 0xbd3af235, 0x2ad7d2bb, 0xeb86d391]

/-- MD5 per-round shift amounts `s[0..63]` (RFC 1321). -/
def md5S : List Nat :=
  [7, 12, 17, 22, 7, 12, 17, 22, 7, 12, 17, 22, 7, 12, 17, 22,
   5, 9, 14, 20, 5, 9, 14, 20, 5, 9, 14, 20, 5, 9, 14, 20,
   4, 11, 16, 23, 4, 11, 16, 23, 4, 11, 16, 23, 4, 11, 16, 23,
   6, 10, 15, 21, 6, 10, 15, 21, 6, 10, 15, 21, 6, 10, 15, 21]

/-- MD5 round nonlinear function (F, G, H, I depending on the round index). -/
def md5F (i b c d : Nat) : Nat :=
  if i < 16 then (b &&& c) ||| (not32 b &&& d)
  else if i < 32 then (d &&& b) ||| (not32 d &&& c)
  else if i < 48 then b ^^^ c ^^^ d
  else c ^^^ (b ||| not32 d)

/-- MD5 message word index for round `i`. -/
def md5G (i : Nat) : Nat :=
  if i < 16 then i
  else if i < 32 then (5 * i + 1) % 16
  else if i < 48 then (3 * i + 5) % 16
  else (7 * i) % 16

/-- MD5 padding: append 0x80, zero bytes to 56 mod 64, then the bit length
as a 64-bit little-endian quantity. -/
def padMsg (m : List Nat) : List Nat :=
  let L := m.length
  let z := (119 - (L % 64)) % 64
  m ++ [0x80] ++ List.replicate z 0 ++
    (List.range 8).map (fun i => ((8 * L) >>> (8 * i)) % 256)

/-- Split a list into 64-byte blocks (fuel-based for kernel evaluation). -/
def chunks64Aux : Nat → List Nat → List (List Nat)
  | 0, _ => []
  | _, [] => []
  | fuel + 1, l => l.take 64 :: chunks64Aux fuel (l.drop 64)

/-- Split a padded message into its 64-byte blocks. -/
def chunks64 (l : List Nat) : List (List Nat) := chunks64Aux l.length l

/-- Decode a 64-byte block into 16 little-endian 32-bit words. -/
def wordsOfBlock (b : List Nat) : List Nat :=
  (List.range 16).map (fun j =>
    b.getD (4 * j) 0 + 256 * b.getD (4 * j + 1) 0 +
    65536 * b.getD (4 * j + 2) 0 + 16777216 * b.getD (4 * j + 3) 0)

/-- One MD5 round on the state `(a, b, c, d)`. -/
def md5Round (M : List Nat) (st : Nat × Nat × Nat × Nat) (i : Nat) :
    Nat × Nat × Nat × Nat :=
  let (a, b, c, d) := st
  let f := (md5F i b c d + a + md5K.getD i 0 + M.getD (md5G i) 0) % 4294967296
  (d, (b + rotl32 f (md5S.getD i 0)) % 4294967296, b, c)

/-- Process one 64-byte block: 64 rounds then the feed-forward addition. -/
def processBlock (st : Nat × Nat × Nat × Nat) (block : List Nat) :
    Nat × Nat × Nat × Nat :=
  let M := wordsOfBlock block
  let r := (List.range 64).foldl (md5Round M) st
  ((st.1 + r.1) % 4294967296, (st.2.1 + r.2.1) % 4294967296,
   (st.2.2.1 + r.2.2.1) % 4294967296, (st.2.2.2 + r.2.2.2) % 4294967296)

/-- MD5 initial state. -/
def md5Init : Nat × Nat × Nat × Nat :=
  (0x67452301, 0xefcdab89, 0x98badcfe, 0x10325476)

/-- The MD5 digest of a byte string, as four 32-bit state words. -/
def md5digest (m : List Nat) : Nat × Nat × Nat × Nat :=
  (chunks64 (padMsg m)).foldl processBlock md5Init

/-- Little-endian byte decomposition of a 32-bit word. -/
def wordLE (w : Nat) : List Nat :=
  [w % 256, (w >>> 8) % 256, (w >>> 16) % 256, (w >>> 24) % 256]

/-- Lowercase hexadecimal digit: `0`–`9` then `a`–`f`. -/
def hexDigit (n : Nat) : Char :=
  if n < 10 then Char.ofNat (48 + n) else Char.ofNat (87 + n)

/-- Two-character lowercase hex rendering of a byte. -/
def byteHex (b : Nat) : List Char := [hexDigit (b / 16 % 16), hexDigit (b % 16)]

/-- The 16 digest bytes of MD5, in output order. -/
def md5bytes (m : List Nat) : List Nat :=
  let d := md5digest m
  wordLE d.1 ++ wordLE d.2.1 ++ wordLE d.2.2.1 ++ wordLE d.2.2.2

/-- Embedding of `hashlib.md5(content).hexdigest()`: 32 lowercase hex chars. -/
def md5hex (m : List Nat) : String :=
  String.mk ((md5bytes m).map byteHex).flatten

/-- A natural number reduced into the 32-bit range, as a `Fin`. -/
def fin32 (n : Nat) : Fin 4294967296 := ⟨n % 4294967296, Nat.mod_lt _ (by norm_num)⟩

/-- The MD5 digest with its four words packaged in the finite 32-bit type;
the digest range is finite while payloads are unbounded, which is what
forces collisions. -/
def md5digestFin (m : List Nat) :
    Fin 4294967296 × Fin 4294967296 × Fin 4294967296 × Fin 4294967296 :=
  (fin32 (md5digest m).1, fin32 (md5digest m).2.1,
   fin32 (md5digest m).2.2.1, fin32 (md5digest m).2.2.2)

/-- Hex rendering of a packaged digest; `md5hex` factors through it. -/
def renderDigest
    (q : Fin 4294967296 × Fin 4294967296 × Fin 4294967296 × Fin 4294967296) :
    String :=
  String.mk (((wordLE q.1.val ++ wordLE q.2.1.val ++ wordLE q.2.2.1.val ++
    wordLE q.2.2.2.val).map byteHex).flatten)

/-- UTF-8 encoding of one code point, as byte values. -/
def utf8Char (c : Char) : List Nat :=
  let n := c.toNat
  if n < 128 then [n]
  else if n < 2048 then [192 + n / 64, 128 + n % 64]
  else if n < 65536 then [224 + n / 4096, 128 + (n / 64) % 64, 128 + n % 64]
  else [240 + n / 262144, 128 + (n / 4096) % 64, 128 + (n / 64) % 64,
        128 + n % 64]

/-- UTF-8 encoding of a string, modelling Python's `text.encode('utf-8')`. -/
def utf8Str (s : String) : List Nat := (s.data.map utf8Char).flatten

/-- Embedding of `_get_file_hash(content)`: MD5 hexdigest of the raw bytes. -/
def get_file_hash (content : List Nat) : String := md5hex content

/-- Embedding of `_get_text_hash(text)`: MD5 hexdigest of the UTF-8 bytes. -/
def get_text_hash (text : String) : String := md5hex (utf8Str text)

/-- Python's default whitespace set for `str.strip()` (ASCII part). -/
def isPySpace (c : Char) : Bool :=
  c = ' ' || c = '\t' || c = '\n' || c = '\x0d' || c = '\x0b' || c = '\x0c'

/-- Embedding of `text.strip()` for the default whitespace set. -/
def pyStrip (s : String) : String :=
  String.mk (((s.data.dropWhile isPySpace).reverse.dropWhile isPySpace).reverse)

/-- Embedding of `s.lower()` (ASCII case folding). -/
def strLower (s : String) : String := String.mk (s.data.map Char.toLower)

/-- Embedding of `sep.join(parts)`. -/
def joinWith (sep : String) : List String → String
  | [] => ""
  | [x] => x
  | x :: y :: rest => x ++ sep ++ joinWith sep (y :: rest)

/-- Split on every occurrence of a separator character, keeping empty
pieces, as Python's `s.split(" ")` does. -/
def splitCharAux (sep : Char) : List Char → List Char → List String
  | [], acc => [String.mk acc.reverse]
  | c :: rest, acc =>
      if c = sep then String.mk acc.reverse :: splitCharAux sep rest []
      else splitCharAux sep rest (c :: acc)

/-- Embedding of Python's `s.split(" ")` (single-character separator). -/
def pySplit (sep : Char) (s : String) : List String := splitCharAux sep s.data []

/-- A Python dict value produced by `transform_text_to_resume_data`: either a
dict parsed by `json.loads` from a response text, or the error dict
constructed as `\x7b"error": str(e)\x7d`. -/
inductive PyDict where
  | obj (src : String)
  | errObj (msg : String)
deriving DecidableEq, Repr

/-- A value stored in the caches: a Python `str` or a Python `dict`
(the cache is declared `Any` in the source and holds both). -/
inductive Val where
  | vstr (s : String)
  | vdict (d : PyDict)
deriving DecidableEq, Repr

/-- Call-count instrumentation, as the spec's tests observe stage
invocations. Each counter records entries into one source function. -/
structure Trace where
  extractCalls : Nat
  transformCalls : Nat
  ocrRuns : Nat
  llmCalls : Nat
deriving DecidableEq, Repr

/-- The remote (Redis) tier: absent (`redis_client is None`), present but
raising on every operation, or working with the given key-value store
(pickle round-trips are the identity, TTLs are not modelled). -/
inductive RedisSt where
  | off
  | failing
  | on (store : List (String × Val))
deriving DecidableEq, Repr

/-- Full state of the module: the in-process dict `_cache` as an association
list in insertion order, the Redis tier, and the instrumentation counters. -/
structure St where
  mem : List (String × Val)
  redis : RedisSt
  tr : Trace
deriving DecidableEq, Repr

/-- The initial state: both cache tiers empty, remote tier absent. -/
def st0 : St := ⟨[], RedisSt.off, ⟨0, 0, 0, 0⟩⟩

/-- Association-list lookup, modelling `dict.get` / `redis.get`. -/
def memLookup (k : String) : List (String × Val) → Option Val
  | [] => none
  | (k', v) :: rest => if k' = k then some v else memLookup k rest

/-- Association-list update, modelling `dict[k] = v`: an existing key keeps
its position (Python dicts preserve insertion order on update), a new key is
appended at the end. -/
def memSet (k : String) (v : Val) : List (String × Val) → List (String × Val)
  | [] => [(k, v)]
  | (k', v') :: rest =>
      if k' = k then (k, v) :: rest else (k', v') :: memSet k v rest

/-- Embedding of `_max_cache_size`. -/
def max_cache_size : Nat := 1000

/-- Embedding of `_get_from_cache(key)`: try Redis first (errors swallowed,
missing client skipped), then fall back to the in-process dict. -/
def get_from_cache (key : String) (st : St) : Option Val :=
  match st.redis with
  | RedisSt.on store =>
      match memLookup key store with
      | some v => some v
      | none => memLookup key st.mem
  | _ => memLookup key st.mem

/-- Embedding of `_set_cache(key, value)`: write to Redis when available
(errors swallowed), then write to the in-process dict, first evicting the
oldest quarter (`_max_cache_size // 4` entries, in insertion order) when the
dict is at or above `_max_cache_size`. -/
def set_cache (key : String) (value : Val) (st : St) : St :=
  let redis' :=
    match st.redis with
    | RedisSt.on store => RedisSt.on (memSet key value store)
    | r => r
  let mem' :=
    if st.mem.length ≥ max_cache_size then st.mem.drop (max_cache_size / 4)
    else st.mem
  { st with redis := redis', mem := memSet key value mem' }

/-- Embedding of `os.path.splitext(p)[1]` (posix rules): the extension starts
at the last dot after the last separator, unless the base name up to that dot
consists only of dots. -/
def splitextExt (p : String) : String :=
  let cs := p.data
  let di := (List.range cs.length).foldl
    (fun acc i => if cs.getD i ' ' = '.' then some i else acc) none
  let si := (List.range cs.length).foldl
    (fun acc i => if cs.getD i ' ' = '/' then some i else acc) none
  match di with
  | none => ""
  | some d =>
      let s := match si with | none => 0 | some j => j + 1
      if d < s then ""
      else if ((cs.drop s).take (d - s)).any (fun c => c ≠ '.') then
        String.mk (cs.drop d)
      else ""

/-- External effects of the pipeline, as deterministic oracles: the PDF text
layer per page (`pdfplumber`), PDF OCR (`extract_text_from_pdf_with_ocr`'s
fitz/easyocr body), DOCX paragraphs, image OCR lines, the prompt template,
the OpenAI chat completion (stripped content or exception text), and
`json.loads` (source text of the parsed dict, or exception text). -/
structure Oracles where
  pdfPages : List Nat → List (Option String)
  ocrPdf : List Nat → String
  docxParas : List Nat → List String
  imageLines : List Nat → List String
  promptFor : String → String
  complete : String → Except String String
  jsonLoads : String → Except String String

/-- Bump the OCR-run counter. -/
def bumpOcr (st : St) : St :=
  { st with tr := { st.tr with ocrRuns := st.tr.ocrRuns + 1 } }

/-- Bump the extraction-stage counter. -/
def bumpExtract (st : St) : St :=
  { st with tr := { st.tr with extractCalls := st.tr.extractCalls + 1 } }

/-- Bump the transform-stage counter. -/
def bumpTransform (st : St) : St :=
  { st with tr := { st.tr with transformCalls := st.tr.transformCalls + 1 } }

/-- Bump the OpenAI-call counter. -/
def bumpLlm (st : St) : St :=
  { st with tr := { st.tr with llmCalls := st.tr.llmCalls + 1 } }

/-- The concatenated per-page text layer of a PDF
(`text += page.extract_text() or ""`). -/
def pdfLayerText (E : Oracles) (content : List Nat) : String :=
  ((E.pdfPages content).map (fun p => p.getD "")).foldl
    (fun acc t => acc ++ t) ""

/-- Embedding of `extract_text_from_pdf(content)`: concatenate the per-page
text layer (`page.extract_text() or ""`); if the result is empty or
whitespace-only, fall back to OCR through the `pdf_ocr:<hash>` cache entry. -/
def extract_text_from_pdf (E : Oracles) (content : List Nat) (st : St) :
    Val × St :=
  let text := pdfLayerText E content
  if pyStrip text = "" then
    let key := "pdf_ocr:" ++ get_file_hash content
    match get_from_cache key st with
    | some v => (v, st)
    | none =>
        let t := E.ocrPdf content
        let st' := bumpOcr st
        (Val.vstr t, set_cache key (Val.vstr t) st')
  else (Val.vstr text, st)

/-- Embedding of `extract_text_from_docx(content)`. -/
def extract_text_from_docx (E : Oracles) (content : List Nat) : String :=
  joinWith "\n" (E.docxParas content)

/-- Embedding of `extract_text_from_image(content)` with its
`image_ocr:<hash>` cache entry. -/
def extract_text_from_image (E : Oracles) (content : List Nat) (st : St) :
    Val × St :=
  let key := "image_ocr:" ++ get_file_hash content
  match get_from_cache key st with
  | some v => (v, st)
  | none =>
      let text := joinWith "\n" (E.imageLines content)
      (Val.vstr text, set_cache key (Val.vstr text) st)

/-- Embedding of `extract_text_from_resume(filename, content)`: serve from
the `text_extract:<hash>` cache entry when present, otherwise dispatch on the
lowercased extension; unrecognized extensions return the sentinel without
caching. Entries to this function are counted for instrumentation. -/
def extract_text_from_resume (E : Oracles) (filename : String)
    (content : List Nat) (st : St) : Val × St :=
  let st := bumpExtract st
  let key := "text_extract:" ++ get_file_hash content
  match get_from_cache key st with
  | some v => (v, st)
  | none =>
      let ext := strLower (splitextExt filename)
      if ext = ".pdf" then
        let r := extract_text_from_pdf E content st
        (r.1, set_cache key r.1 r.2)
      else if ext = ".docx" then
        let t := Val.vstr (extract_text_from_docx E content)
        (t, set_cache key t st)
      else if ext ∈ [".png", ".jpg", ".jpeg"] then
        let r := extract_text_from_image E content st
        (r.1, set_cache key r.1 r.2)
      else (Val.vstr "Unsupported file format.", st)

/-- Embedding of `transform_text_to_resume_data(raw_text)`: serve from the
`openai_transform:<hash>` cache entry when present; otherwise call the model
and parse JSON, caching only successes and returning the error dict
(uncached) when the call or the parse raises. Entries to this function and
chat-completion calls are counted for instrumentation. -/
def transform_text_to_resume_data (E : Oracles) (raw_text : String)
    (st : St) : Val × St :=
  let st := bumpTransform st
  let key := "openai_transform:" ++ get_text_hash raw_text
  match get_from_cache key st with
  | some v => (v, st)
  | none =>
      let st := bumpLlm st
      match E.complete (E.promptFor raw_text) with
      | Except.error e => (Val.vdict (PyDict.errObj e), st)
      | Except.ok content =>
          match E.jsonLoads content with
          | Except.error e => (Val.vdict (PyDict.errObj e), st)
          | Except.ok src =>
              let d := Val.vdict (PyDict.obj src)
              (d, set_cache key d st)

/-- Embedding of `parse_resume(filename, content)`: serve from the
`full_parse:<hash>` cache entry when present, otherwise run extraction and
transform and cache whatever the transform returned under `full_parse`.
Returns `none` for the unreachable dynamic-typing failure where a cached
non-`str` value would flow into `raw_text.encode('utf-8')`. -/
def parse_resume (E : Oracles) (filename : String) (content : List Nat)
    (st : St) : Option (Val × St) :=
  let key := "full_parse:" ++ get_file_hash content
  match get_from_cache key st with
  | some v => some (v, st)
  | none =>
      let r := extract_text_from_resume E filename content st
      match r.1 with
      | Val.vdict _ => none
      | Val.vstr raw_text =>
          let t := transform_text_to_resume_data E raw_text r.2
          some (t.1, set_cache key t.1 t.2)

/-- A user document, as a Python dict from field names to (stringified)
values; a BSON ObjectId field value is modelled by its string form. -/
def Doc : Type := List (String × String)

/-- Association-list lookup for string-valued dicts. -/
def docLookup (k : String) : List (String × String) → Option String
  | [] => none
  | (k', v) :: rest => if k' = k then some v else docLookup k rest

/-- Association-list update for string-valued dicts. -/
def docSet (k : String) (v : String) :
    List (String × String) → List (String × String)
  | [] => [(k, v)]
  | (k', v') :: rest =>
      if k' = k then (k, v) :: rest else (k', v') :: docSet k v rest

/-- External effects of `user_service.py` and the token check, as
deterministic oracles: database connection plus collection listing (may
raise), `ObjectId(user_id)` validity, `find_one` (may raise; returns the
document or nothing), and `verify_token` (decoded payload or exception). -/
structure Env where
  dbConnect : Except String Unit
  objectIdOk : String → Bool
  findOne : String → Except String (Option Doc)
  verifyTok : String → Except String Doc

/-- Embedding of the `try` body of `find_user_by_id`: connect and list
collections, convert the id (returning `None` on an invalid ObjectId, per the
inner `except InvalidId`), run `find_one`, and on a truthy document restring
its `_id`; a document without `_id` raises `KeyError`. -/
def find_user_body (W : Env) (user_id : String) :
    Except String (Option Doc) :=
  match W.dbConnect with
  | Except.error e => Except.error e
  | Except.ok _ =>
      if W.objectIdOk user_id = false then Except.ok none
      else
        match W.findOne user_id with
        | Except.error e => Except.error e
        | Except.ok none => Except.ok none
        | Except.ok (some d) =>
            if d.isEmpty then Except.ok none
            else
              match docLookup "_id" d with
              | none => Except.error "KeyError"
              | some i => Except.ok (some (docSet "_id" i d))

/-- Embedding of `find_user_by_id(user_id)`: the body above with the outer
`except Exception` mapping any raised error to `None`. -/
def find_user_by_id (W : Env) (user_id : String) : Option Doc :=
  match find_user_body W user_id with
  | Except.error _ => none
  | Except.ok r => r

/-- An HTTP error response raised via `HTTPException` (status code and the
`error` field of the detail dict), or the uncaught-exception 500. -/
structure HTTPErr where
  status : Nat
  errMsg : String
deriving DecidableEq, Repr

/-- The CORS/origin allow-list from `app.py`. -/
def origins : List String :=
  ["https://jobstackuidev-gwakgfdgbgh5emdw.canadacentral-01.azurewebsites.net",
   "https://jobtackui-fgcdftezgkhbbpbg.canadacentral-01.azurewebsites.net",
   "http://localhost:5173",
   "https://jobtackui-fgcdftezgkhbbpbg.canadacentral-01.azurewebsites.net"]

/-- A successful `/parse-resume` response: the parsed resume data and the
user id echoed back. -/
structure ParseResp where
  resumeData : Val
  userId : Option String
deriving DecidableEq, Repr

/-- Embedding of the `/parse-resume` handler `upload_resume`: origin check,
Authorization header presence, Bearer token split, token verification,
`userId` extraction, user lookup (401 on a missing user), then the parsing
pipeline. A `none` from `parse_resume` is the uncaught exception, surfacing
as a 500. -/
def upload_resume (E : Oracles) (W : Env) (origin : Option String)
    (authHeader : Option String) (filename : String) (content : List Nat)
    (st : St) : Except HTTPErr (ParseResp × St) :=
  let originOk :=
    match origin with
    | none => false
    | some o => o ≠ "" && origins.contains o
  if originOk = false then
    Except.error ⟨403, "Origin not allowed"⟩
  else
    match authHeader with
    | none => Except.error ⟨400, "Authorization header is missing"⟩
    | some ah =>
        if ah = "" then Except.error ⟨400, "Authorization header is missing"⟩
        else
          match (pySplit ' ' ah)[1]? with
          | none => Except.error ⟨400, "Bearer token is missing"⟩
          | some token =>
              if token = "" then
                Except.error ⟨400, "Bearer token is missing"⟩
              else
                match W.verifyTok token with
                | Except.error _ =>
                    Except.error ⟨401, "Invalid or expired token"⟩
                | Except.ok decoded =>
                    match docLookup "userId" decoded with
                    | none => Except.error ⟨400, "Invalid token payload"⟩
                    | some uid =>
                        if uid = "" then
                          Except.error ⟨400, "Invalid token payload"⟩
                        else
                          match find_user_by_id W uid with
                          | none =>
                              Except.error ⟨401, "User does not exist"⟩
                          | some user =>
                              match parse_resume E filename content st with
                              | none =>
                                  Except.error ⟨500, "Internal Server Error"⟩
                              | some (v, st') =>
                                  Except.ok (⟨v, docLookup "_id" user⟩, st')

/-- Apply a sequence of `_set_cache` operations (key-value pairs, oldest
first) to a state. -/
def setAll (ops : List (String × Val)) (st : St) : St :=
  ops.foldl (fun s kv => set_cache kv.1 kv.2 s) st

/-- Insert a list of keys, all with the same value, via `_set_cache`. -/
def insertAll (v : Val) (ks : List String) (st : St) : St :=
  ks.foldl (fun s k => set_cache k v s) st

/-- Concrete deterministic oracles used to instantiate the theorems on small
inputs: empty content has an empty PDF text layer, other content has a
nonempty one; the model call and the JSON parse succeed. -/
def tE : Oracles where
  pdfPages := fun c => if c = [] then [none] else [some "hello resume"]
  ocrPdf := fun _ => "ocr text"
  docxParas := fun _ => ["para one", "para two"]
  imageLines := fun _ => ["img line"]
  promptFor := fun t => t
  complete := fun _ => Except.ok "resp"
  jsonLoads := fun s => Except.ok s

/-- Variant of `tE` whose chat-completion call always raises. -/
def tEFail : Oracles := { tE with complete := fun _ => Except.error "APIError" }

/-- Variant of `tE` whose response never parses as JSON. -/
def tEBadJson : Oracles :=
  { tE with jsonLoads := fun _ => Except.error "JSONDecodeError" }

/-- Concrete environment for the user-service theorems: everything works and
the user exists. -/
def tW : Env where
  dbConnect := Except.ok ()
  objectIdOk := fun _ => true
  findOne := fun _ => Except.ok (some [("_id", "u1")])
  verifyTok := fun _ => Except.ok [("userId", "u1")]

/-- Variant of `tW` whose database connection raises. -/
def tWDbDown : Env := { tW with dbConnect := Except.error "ServerSelectionTimeoutError" }

/-- Variant of `tW` whose `find_one` raises. -/
def tWFindRaise : Env := { tW with findOne := fun _ => Except.error "OperationFailure" }

/-- Variant of `tW` that rejects every ObjectId string. -/
def tWBadOid : Env := { tW with objectIdOk := fun _ => false }

/-- The run of `parse_resume` on a transform failure (concrete failing
input of the sticky-error analysis): filename `cv.pdf`, content `[1]`. -/
def c1run : Option (Val × St) := parse_resume tEFail "cv.pdf" [1] st0

/-- The state after the failing run (`st0` is a dummy for the impossible
`none` case). -/
def c1st : St := (c1run.getD (Val.vstr "", st0)).2

/-- A successful run of `parse_resume` on filename `cv.pdf`, content `[1]`. -/
def c4run : Option (Val × St) := parse_resume tE "cv.pdf" [1] st0

/-- The value returned by the successful run. -/
def c4v : Val := (c4run.getD (Val.vstr "", st0)).1

/-- The state after the successful run. -/
def c4st : St := (c4run.getD (Val.vstr "", st0)).2

/-- Distinct cache keys for the capacity analysis: the string of `n`
repetitions of `a` for each `n` below the given bound. -/
def distinctKeys (n : Nat) : List String :=
  (List.range n).map (fun i => String.mk (List.replicate i 'a'))

/-- An in-process cache filled with exactly `_max_cache_size` distinct
entries, for exercising the eviction branch. -/
def bigSt : St :=
  ⟨(distinctKeys max_cache_size).map (fun x => (x, Val.vstr "v")),
   RedisSt.off, ⟨0, 0, 0, 0⟩⟩

/-!
Validation of the MD5 embedding against the RFC 1321 test vectors.
-/

example : md5hex [] = "d41d8cd98f00b204e9800998ecf8427e" := by decide

example : md5hex ("abc".data.map Char.toNat) =
    "900150983cd24fb0d6963f7d28e17f72" := by decide

/-!
Lemmas about the two cache tiers.
-/

theorem memLookup_memSet_self (k : String) (v : Val) :
    ∀ m, memLookup k (memSet k v m) = some v
  | [] => by simp [memSet, memLookup]
  | (k', v') :: rest => by
      by_cases h : k' = k <;>
        simp [memSet, h, memLookup, memLookup_memSet_self k v rest]

theorem get_from_cache_set_cache_self (k : String) (v : Val) (st : St) :
    get_from_cache k (set_cache k v st) = some v := by
  unfold get_from_cache set_cache
  cases st.redis <;> simp [memLookup_memSet_self]

theorem set_cache_mem (k : String) (v : Val) (st : St) :
    (set_cache k v st).mem
      = memSet k v (if st.mem.length ≥ max_cache_size
          then st.mem.drop (max_cache_size / 4) else st.mem) := rfl

theorem set_cache_tr (k : String) (v : Val) (st : St) :
    (set_cache k v st).tr = st.tr := rfl

theorem memSet_length_le (k : String) (v : Val) :
    ∀ m, (memSet k v m).length ≤ m.length + 1
  | [] => by simp [memSet]
  | (k', v') :: rest => by
      by_cases h : k' = k
      · simp only [memSet, h, if_pos, List.length_cons]
        omega
      · simp only [memSet, h, if_neg, if_false, List.length_cons]
        have := memSet_length_le k v rest
        omega

theorem memSet_of_fresh (k : String) (v : Val) :
    ∀ m, k ∉ m.map Prod.fst → memSet k v m = m ++ [(k, v)]
  | [], _ => by simp [memSet]
  | (k', v') :: rest, h => by
      simp only [List.map_cons, List.mem_cons] at h
      push_neg at h
      simp [memSet, Ne.symm h.1, memSet_of_fresh k v rest h.2]

theorem set_cache_length_le (k : String) (v : Val) (st : St)
    (h : st.mem.length ≤ max_cache_size) :
    (set_cache k v st).mem.length ≤ max_cache_size := by
  rw [set_cache_mem]
  by_cases hc : st.mem.length ≥ max_cache_size
  · rw [if_pos hc]
    have h1 := memSet_length_le k v (st.mem.drop (max_cache_size / 4))
    have h2 : (st.mem.drop (max_cache_size / 4)).length
        = st.mem.length - max_cache_size / 4 := List.length_drop _ _
    rw [h2] at h1
    simp only [max_cache_size] at *
    omega
  · rw [if_neg hc]
    have h1 := memSet_length_le k v st.mem
    simp only [max_cache_size] at *
    omega

theorem setAll_length_le_aux (ops : List (String × Val)) :
    ∀ st : St, st.mem.length ≤ max_cache_size →
      (setAll ops st).mem.length ≤ max_cache_size := by
  induction ops with
  | nil => intro st h; simpa [setAll] using h
  | cons kv rest ih =>
      intro st h
      have := set_cache_length_le kv.1 kv.2 st h
      simpa [setAll] using ih (set_cache kv.1 kv.2 st) this

theorem insertAll_fresh (v : Val) :
    ∀ (ks : List String) (st : St), ks.Nodup →
      (∀ x ∈ ks, x ∉ st.mem.map Prod.fst) →
      st.mem.length + ks.length ≤ max_cache_size →
      (insertAll v ks st).mem = st.mem ++ ks.map (fun x => (x, v))
  | [], st, _, _, _ => by simp [insertAll]
  | k :: rest, st, hnd, hfresh, hlen => by
      have hklt : ¬ st.mem.length ≥ max_cache_size := by
        simp only [List.length_cons] at hlen; omega
      have hset : (set_cache k v st).mem = st.mem ++ [(k, v)] := by
        rw [set_cache_mem, if_neg hklt]
        exact memSet_of_fresh k v st.mem (hfresh k (by simp))
      have hrest : (insertAll v rest (set_cache k v st)).mem
          = (set_cache k v st).mem ++ rest.map (fun x => (x, v)) := by
        refine insertAll_fresh v rest (set_cache k v st) hnd.of_cons ?_ ?_
        · intro x hx
          rw [hset]
          simp only [List.map_append, List.mem_append]
          rintro (hmem | hk)
          · exact hfresh x (by simp [hx]) hmem
          · simp at hk
            rcases List.nodup_cons.mp hnd with ⟨hkr, _⟩
            exact hkr (hk ▸ hx)
        · rw [hset]
          simp only [List.length_append, List.length_cons,
            List.length_nil] at *
          omega
      calc (insertAll v (k :: rest) st).mem
          = (insertAll v rest (set_cache k v st)).mem := by simp [insertAll]
        _ = st.mem ++ [(k, v)] ++ rest.map (fun x => (x, v)) := by
            rw [hrest, hset]
        _ = st.mem ++ (k :: rest).map (fun x => (x, v)) := by simp

/-- C2: starting from an empty in-process cache, no sequence of `_set_cache`
operations pushes the in-process dict above the configured capacity of 1000
entries; a set that finds the dict at or above capacity evicts the oldest
quarter (250 entries, in insertion order) before writing; and inserting
1001 distinct keys from empty leaves the dict strictly below capacity. -/
theorem C2_cache_capacity :
    (∀ ops : List (String × Val),
        (setAll ops st0).mem.length ≤ max_cache_size)
  ∧ (∀ (st : St) (k : String) (v : Val), st.mem.length ≥ max_cache_size →
        (set_cache k v st).mem
          = memSet k v (st.mem.drop (max_cache_size / 4)))
  ∧ (∀ (ks : List String) (v : Val), ks.Nodup →
        ks.length = max_cache_size + 1 →
        (insertAll v ks st0).mem.length < max_cache_size) := by
  refine ⟨?_, ?_, ?_⟩
  · intro ops
    exact setAll_length_le_aux ops st0 (by simp [st0])
  · intro st k v h
    rw [set_cache_mem, if_pos h]
  · intro ks v hnd hlen
    rcases List.eq_nil_or_concat ks with rfl | ⟨l, a, rfl⟩
    · simp [max_cache_size] at hlen
    · simp only [List.concat_eq_append] at hnd hlen ⊢
      have hllen : l.length = max_cache_size := by
        simp only [List.length_append, List.length_cons,
          List.length_nil] at hlen
        omega
      have hlnd : l.Nodup := (List.nodup_append.mp hnd).1
      have hanotl : a ∉ l := by
        intro hal
        rcases List.nodup_append.mp hnd with ⟨-, -, hdisj⟩
        exact hdisj hal (by simp)
      have hmem : (insertAll v l st0).mem = l.map (fun x => (x, v)) := by
        have := insertAll_fresh v l st0 hlnd (by simp [st0]) (by
          simp [st0, hllen])
        simpa [st0] using this
      have hstep : insertAll v (l ++ [a]) st0
          = set_cache a v (insertAll v l st0) := by
        simp [insertAll, List.foldl_append]
      rw [hstep]
      have hge : (insertAll v l st0).mem.length ≥ max_cache_size := by
        rw [hmem]; simp [hllen]
      rw [set_cache_mem, if_pos hge]
      have hfreshdrop :
          a ∉ ((insertAll v l st0).mem.drop (max_cache_size / 4)).map
            Prod.fst := by
        intro hmemdrop
        have hsub : ((insertAll v l st0).mem.drop
            (max_cache_size / 4)).map Prod.fst ⊆
            (insertAll v l st0).mem.map Prod.fst := by
          intro y hy
          exact List.map_subset _ (List.drop_subset _ _) hy
        have hin : a ∈ (insertAll v l st0).mem.map Prod.fst := hsub hmemdrop
        rw [hmem] at hin
        simp only [List.map_map] at hin
        simp at hin
        exact hanotl hin
      rw [memSet_of_fresh a v _ hfreshdrop]
      rw [hmem]
      simp only [List.length_append, List.length_drop, List.length_map,
        List.length_cons, List.length_nil, hllen]
      simp [max_cache_size]

/-- Witness for C2 at concrete inputs: a one-element sequence respects the
bound, a full cache evicts on the next set, and 1001 distinct keys inserted
from empty land strictly below capacity. -/
theorem C2_witness :
    (setAll [("k", Val.vstr "v")] st0).mem.length ≤ max_cache_size
  ∧ (set_cache "k" (Val.vstr "v") bigSt).mem
      = memSet "k" (Val.vstr "v") (bigSt.mem.drop (max_cache_size / 4))
  ∧ (insertAll (Val.vstr "v") (distinctKeys (max_cache_size + 1))
        st0).mem.length < max_cache_size := by
  refine ⟨C2_cache_capacity.1 [("k", Val.vstr "v")],
    C2_cache_capacity.2.1 bigSt "k" (Val.vstr "v") ?_,
    C2_cache_capacity.2.2 (distinctKeys (max_cache_size + 1)) (Val.vstr "v")
      ?_ ?_⟩
  · simp only [bigSt, distinctKeys, List.length_map, List.length_range,
      ge_iff_le, le_refl]
  · refine List.Nodup.map ?_ (List.nodup_range _)
    intro i j hij
    have hd : List.replicate i 'a' = List.replicate j 'a' :=
      congrArg String.data hij
    simpa using congrArg List.length hd
  · simp only [distinctKeys, List.length_map, List.length_range]

/-- C3: a `_set_cache(K, V)` immediately followed by `_get_from_cache(K)`
returns `V` in every state — whether the remote tier is absent, raising on
every operation, or working — because the in-process write always lands and
remote failures are swallowed. -/
theorem C3_set_get_roundtrip :
    ∀ (key : String) (value : Val) (st : St),
      get_from_cache key (set_cache key value st) = some value := by
  intro key value st
  exact get_from_cache_set_cache_self key value st

theorem parse_resume_writes (E : Oracles) (F1 F2 : String) (c : List Nat)
    (st : St) {v : Val} {st1 : St}
    (h : parse_resume E F1 c st = some (v, st1)) :
    parse_resume E F2 c st1 = some (v, st1) := by
  unfold parse_resume at h ⊢
  cases hg : get_from_cache ("full_parse:" ++ get_file_hash c) st with
  | some w =>
      simp only [hg, Option.some.injEq, Prod.mk.injEq] at h
      obtain ⟨rfl, rfl⟩ := h
      simp [hg]
  | none =>
      simp only [hg] at h
      cases hr : (extract_text_from_resume E F1 c st).1 with
      | vdict d => simp [hr] at h
      | vstr s =>
          simp only [hr, Option.some.injEq, Prod.mk.injEq] at h
          obtain ⟨h1, h2⟩ := h
          subst h2
          subst h1
          simp only [get_from_cache_set_cache_self]

/-- C4: with the pipeline's deterministic effects fixed, a second
`parse_resume` call with the same filename and content returns exactly the
first call's value and leaves the state untouched — in particular the
extraction-stage and transform-stage counters do not move, so neither stage
runs again; the call is answered from the `full_parse` entry. -/
theorem C4_parse_idempotent (E : Oracles) (F : String) (c : List Nat)
    (st : St) (v : Val) (st1 : St)
    (h : parse_resume E F c st = some (v, st1)) :
    parse_resume E F c st1 = some (v, st1)
  ∧ (parse_resume E F c st1).map (fun p => p.2.tr.extractCalls)
      = some st1.tr.extractCalls
  ∧ (parse_resume E F c st1).map (fun p => p.2.tr.transformCalls)
      = some st1.tr.transformCalls := by
  have h2 := parse_resume_writes E F F c st h
  exact ⟨h2, by simp [h2], by simp [h2]⟩

/-- Witness for C4: a concrete first run from the empty state, and the
second run answered from cache with the identical value and state. -/
theorem C4_witness :
    parse_resume tE "cv.pdf" [1] st0 = some (c4v, c4st)
  ∧ parse_resume tE "cv.pdf" [1] c4st = some (c4v, c4st) :=
  ⟨by decide, (C4_parse_idempotent tE "cv.pdf" [1] st0 c4v c4st (by decide)).1⟩

/-- C9: the `full_parse` key is derived from the content fingerprint only,
so after a successful `parse_resume(F1, C)` any `parse_resume(F2, C)` —
whatever the second filename and its extension — is served the stored
result unchanged. -/
theorem C9_full_parse_ignores_filename (E : Oracles) (F1 F2 : String)
    (c : List Nat) (st : St) (v : Val) (st1 : St)
    (h : parse_resume E F1 c st = some (v, st1)) :
    parse_resume E F2 c st1 = some (v, st1) :=
  parse_resume_writes E F1 F2 c st h

/-- Witness for C9: content first parsed as `cv.pdf`; the repeat call as
`cv.docx` — whose direct extraction would produce the DOCX paragraphs, not
the PDF text layer — still returns the cached PDF-derived result. -/
theorem C9_witness :
    parse_resume tE "cv.pdf" [1] st0 = some (c4v, c4st)
  ∧ parse_resume tE "cv.docx" [1] c4st = some (c4v, c4st) :=
  ⟨by decide,
   C9_full_parse_ignores_filename tE "cv.pdf" "cv.docx" [1] st0 c4v c4st
     (by decide)⟩

/-- C1 fails on the code: when the transform stage raises (here the chat
completion raises `APIError`), `parse_resume` still stores the returned
error dict under the `full_parse:<fingerprint>` key, and the repeated call
with the same file is answered from that cached error — the transform-stage
counter stays at 1 — instead of re-running the transform. -/
theorem C1_error_cached_bug :
    c1run = some (Val.vdict (PyDict.errObj "APIError"), c1st)
  ∧ get_from_cache ("full_parse:" ++ get_file_hash [1]) c1st
      = some (Val.vdict (PyDict.errObj "APIError"))
  ∧ parse_resume tEFail "cv.pdf" [1] c1st
      = some (Val.vdict (PyDict.errObj "APIError"), c1st)
  ∧ c1st.tr.transformCalls = 1 :=
  ⟨by decide, by decide, by decide, by decide⟩

theorem get_from_cache_congr (k : String) (st st' : St)
    (hm : st.mem = st'.mem) (hr : st.redis = st'.redis) :
    get_from_cache k st = get_from_cache k st' := by
  unfold get_from_cache
  rw [hm, hr]

/-- C5: on a cache miss for the text, if the chat completion raises or the
response fails to parse as JSON, the transform returns the error dict,
leaves both cache tiers untouched (only the instrumentation counters move),
and the next invocation with the same text reaches the model again (its
call counter advances) instead of hitting a cached error. -/
theorem C5_transform_error_not_cached (E : Oracles) (t : String) (st : St)
    (h : get_from_cache ("openai_transform:" ++ get_text_hash t) st = none) :
    (∀ e, E.complete (E.promptFor t) = Except.error e →
        transform_text_to_resume_data E t st
          = (Val.vdict (PyDict.errObj e), bumpLlm (bumpTransform st))
      ∧ (transform_text_to_resume_data E t st).2.mem = st.mem
      ∧ (transform_text_to_resume_data E t st).2.redis = st.redis
      ∧ (transform_text_to_resume_data E t
            ((transform_text_to_resume_data E t st).2)).2.tr.llmCalls
          = (transform_text_to_resume_data E t st).2.tr.llmCalls + 1)
  ∧ (∀ s e, E.complete (E.promptFor t) = Except.ok s →
        E.jsonLoads s = Except.error e →
        transform_text_to_resume_data E t st
          = (Val.vdict (PyDict.errObj e), bumpLlm (bumpTransform st))
      ∧ (transform_text_to_resume_data E t st).2.mem = st.mem
      ∧ (transform_text_to_resume_data E t st).2.redis = st.redis
      ∧ (transform_text_to_resume_data E t
            ((transform_text_to_resume_data E t st).2)).2.tr.llmCalls
          = (transform_text_to_resume_data E t st).2.tr.llmCalls + 1) := by
  have hb : get_from_cache ("openai_transform:" ++ get_text_hash t)
      (bumpTransform st) = none :=
    (get_from_cache_congr _ (bumpTransform st) st rfl rfl).trans h
  have hb2 : ∀ st' : St, st'.mem = st.mem → st'.redis = st.redis →
      get_from_cache ("openai_transform:" ++ get_text_hash t)
        (bumpTransform st') = none := by
    intro st' hm hr
    exact (get_from_cache_congr _ (bumpTransform st') st (by simp [bumpTransform, hm]) (by simp [bumpTransform, hr])).trans h
  constructor
  · intro e hce
    have hmain : transform_text_to_resume_data E t st
        = (Val.vdict (PyDict.errObj e), bumpLlm (bumpTransform st)) := by
      unfold transform_text_to_resume_data
      simp only [hb, hce]
    refine ⟨hmain, by rw [hmain]; rfl, by rw [hmain]; rfl, ?_⟩
    rw [hmain]
    have hmain2 : transform_text_to_resume_data E t
        (bumpLlm (bumpTransform st))
        = (Val.vdict (PyDict.errObj e),
           bumpLlm (bumpTransform (bumpLlm (bumpTransform st)))) := by
      unfold transform_text_to_resume_data
      simp only [hb2 (bumpLlm (bumpTransform st)) rfl rfl, hce]
    rw [hmain2]
    rfl
  · intro s e hce hjs
    have hmain : transform_text_to_resume_data E t st
        = (Val.vdict (PyDict.errObj e), bumpLlm (bumpTransform st)) := by
      unfold transform_text_to_resume_data
      simp only [hb, hce, hjs]
    refine ⟨hmain, by rw [hmain]; rfl, by rw [hmain]; rfl, ?_⟩
    rw [hmain]
    have hmain2 : transform_text_to_resume_data E t
        (bumpLlm (bumpTransform st))
        = (Val.vdict (PyDict.errObj e),
           bumpLlm (bumpTransform (bumpLlm (bumpTransform st)))) := by
      unfold transform_text_to_resume_data
      simp only [hb2 (bumpLlm (bumpTransform st)) rfl rfl, hce, hjs]
    rw [hmain2]
    rfl

/-- Witness for C5: concrete failing transforms (a raising completion and a
non-JSON response) return error dicts and leave the cache mapping empty. -/
theorem C5_witness :
    transform_text_to_resume_data tEFail "some text" st0
      = (Val.vdict (PyDict.errObj "APIError"), bumpLlm (bumpTransform st0))
  ∧ (transform_text_to_resume_data tEFail "some text" st0).2.mem = st0.mem
  ∧ transform_text_to_resume_data tEBadJson "some text" st0
      = (Val.vdict (PyDict.errObj "JSONDecodeError"),
         bumpLlm (bumpTransform st0))
  ∧ (transform_text_to_resume_data tEBadJson "some text" st0).2.mem
      = st0.mem :=
  ⟨((C5_transform_error_not_cached tEFail "some text" st0 rfl).1
      "APIError" rfl).1,
   ((C5_transform_error_not_cached tEFail "some text" st0 rfl).1
      "APIError" rfl).2.1,
   ((C5_transform_error_not_cached tEBadJson "some text" st0 rfl).2
      "resp" "JSONDecodeError" rfl rfl).1,
   ((C5_transform_error_not_cached tEBadJson "some text" st0 rfl).2
      "resp" "JSONDecodeError" rfl rfl).2.1⟩

/-- C6: on a cache miss for the content, the extraction stage dispatches on
the lowercased filename extension: an extension outside the five recognized
ones returns the sentinel text (raising nothing), `.pdf` goes to the PDF
extractor, `.docx` to the DOCX extractor, and the three image extensions to
the image extractor. -/
theorem C6_extension_dispatch (E : Oracles) (F : String) (c : List Nat)
    (st : St)
    (h : get_from_cache ("text_extract:" ++ get_file_hash c) st = none) :
    (strLower (splitextExt F) ∉
        ([".pdf", ".docx", ".png", ".jpg", ".jpeg"] : List String) →
      (extract_text_from_resume E F c st).1
        = Val.vstr "Unsupported file format.")
  ∧ (strLower (splitextExt F) = ".pdf" →
      (extract_text_from_resume E F c st).1
        = (extract_text_from_pdf E c (bumpExtract st)).1)
  ∧ (strLower (splitextExt F) = ".docx" →
      (extract_text_from_resume E F c st).1
        = Val.vstr (extract_text_from_docx E c))
  ∧ (strLower (splitextExt F) ∈ ([".png", ".jpg", ".jpeg"] : List String) →
      (extract_text_from_resume E F c st).1
        = (extract_text_from_image E c (bumpExtract st)).1) := by
  have hb : get_from_cache ("text_extract:" ++ get_file_hash c)
      (bumpExtract st) = none :=
    (get_from_cache_congr _ (bumpExtract st) st rfl rfl).trans h
  refine ⟨?_, ?_, ?_, ?_⟩
  · intro hn
    simp only [List.mem_cons, List.not_mem_nil, or_false] at hn
    push_neg at hn
    obtain ⟨h1, h2, h3, h4, h5⟩ := hn
    unfold extract_text_from_resume
    simp only [hb, h1, h2, h3, h4, h5, if_false, List.mem_cons,
      List.not_mem_nil, or_false, or_self, ite_false]
  · intro hpdf
    unfold extract_text_from_resume
    simp only [hb, hpdf, if_true, ite_true]
  · intro hdocx
    have hne : (".docx" : String) ≠ ".pdf" := by decide
    unfold extract_text_from_resume
    simp only [hb, hdocx, hne, if_false, ite_false, if_true, ite_true]
  · intro himg
    simp only [List.mem_cons, List.not_mem_nil, or_false] at himg
    have hne1 : strLower (splitextExt F) ≠ ".pdf" := by
      rcases himg with h' | h' | h' <;> rw [h'] <;> decide
    have hne2 : strLower (splitextExt F) ≠ ".docx" := by
      rcases himg with h' | h' | h' <;> rw [h'] <;> decide
    have himg' : strLower (splitextExt F) ∈
        ([".png", ".jpg", ".jpeg"] : List String) := by
      simp only [List.mem_cons, List.not_mem_nil, or_false]
      exact himg
    unfold extract_text_from_resume
    simp only [hb, hne1, hne2, himg', if_false, ite_false, if_true, ite_true]

/-- Witness for C6: a `.txt` filename on an empty cache yields the sentinel,
and a `.DOCX` filename (case-insensitive dispatch) yields the joined
paragraphs. -/
theorem C6_witness :
    (extract_text_from_resume tE "x.txt" [] st0).1
      = Val.vstr "Unsupported file format."
  ∧ (extract_text_from_resume tE "y.DOCX" [] st0).1
      = Val.vstr (extract_text_from_docx tE []) :=
  ⟨(C6_extension_dispatch tE "x.txt" [] st0 rfl).1 (by decide),
   (C6_extension_dispatch tE "y.DOCX" [] st0 rfl).2.2.1 (by decide)⟩

/-- C7: the PDF extractor takes the OCR fallback exactly when the
concatenated text layer strips to empty: a nonempty layer is returned with
no OCR run and no state change; an empty layer with a missing `pdf_ocr`
entry runs OCR once and caches it under `pdf_ocr:<fingerprint>`, and the
repeat call is then served from that entry without another run; an empty
layer with a cached entry is served from it; and the `pdf_ocr` key is
distinct from the outer stage's `text_extract` key for the same content. -/
theorem C7_pdf_ocr_fallback (E : Oracles) (c : List Nat) (st : St) :
    (pyStrip (pdfLayerText E c) ≠ "" →
        extract_text_from_pdf E c st = (Val.vstr (pdfLayerText E c), st))
  ∧ (pyStrip (pdfLayerText E c) = "" →
      get_from_cache ("pdf_ocr:" ++ get_file_hash c) st = none →
        extract_text_from_pdf E c st
          = (Val.vstr (E.ocrPdf c),
             set_cache ("pdf_ocr:" ++ get_file_hash c)
               (Val.vstr (E.ocrPdf c)) (bumpOcr st))
      ∧ extract_text_from_pdf E c (extract_text_from_pdf E c st).2
          = (Val.vstr (E.ocrPdf c), (extract_text_from_pdf E c st).2))
  ∧ (pyStrip (pdfLayerText E c) = "" → ∀ v,
      get_from_cache ("pdf_ocr:" ++ get_file_hash c) st = some v →
        extract_text_from_pdf E c st = (v, st))
  ∧ ("pdf_ocr:" ++ get_file_hash c) ≠ ("text_extract:" ++ get_file_hash c)
  := by
  refine ⟨?_, ?_, ?_, ?_⟩
  · intro hne
    unfold extract_text_from_pdf
    simp only [hne, if_false, ite_false]
  · intro hz hmiss
    have hfirst : extract_text_from_pdf E c st
        = (Val.vstr (E.ocrPdf c),
           set_cache ("pdf_ocr:" ++ get_file_hash c)
             (Val.vstr (E.ocrPdf c)) (bumpOcr st)) := by
      unfold extract_text_from_pdf
      simp only [hz, hmiss, if_true, ite_true]
    refine ⟨hfirst, ?_⟩
    rw [hfirst]
    unfold extract_text_from_pdf
    simp only [hz, get_from_cache_set_cache_self, if_true, ite_true]
  · intro hz v hhit
    unfold extract_text_from_pdf
    simp only [hz, hhit, if_true, ite_true]
  · intro heq
    have hlen := congrArg String.length heq
    rw [String.length_append, String.length_append] at hlen
    have h8 : ("pdf_ocr:" : String).length = 8 := rfl
    have h13 : ("text_extract:" : String).length = 13 := rfl
    omega

/-- Witness for C7: with empty content the layer is empty, OCR runs and is
cached, and the repeat call is served from the cache; with nonempty content
the layer is nonempty and is returned directly. -/
theorem C7_witness :
    extract_text_from_pdf tE [] st0
      = (Val.vstr "ocr text",
         set_cache ("pdf_ocr:" ++ get_file_hash [])
           (Val.vstr "ocr text") (bumpOcr st0))
  ∧ extract_text_from_pdf tE [] (extract_text_from_pdf tE [] st0).2
      = (Val.vstr "ocr text", (extract_text_from_pdf tE [] st0).2)
  ∧ extract_text_from_pdf tE [1] st0
      = (Val.vstr "hello resume", st0) :=
  ⟨((C7_pdf_ocr_fallback tE [] st0).2.1 (by decide) rfl).1,
   ((C7_pdf_ocr_fallback tE [] st0).2.1 (by decide) rfl).2,
   (C7_pdf_ocr_fallback tE [1] st0).1 (by decide)⟩

theorem processBlock_lt (st : Nat × Nat × Nat × Nat) (b : List Nat) :
    (processBlock st b).1 < 4294967296 ∧ (processBlock st b).2.1 < 4294967296
  ∧ (processBlock st b).2.2.1 < 4294967296
  ∧ (processBlock st b).2.2.2 < 4294967296 := by
  simp only [processBlock]
  refine ⟨?_, ?_, ?_, ?_⟩ <;> exact Nat.mod_lt _ (by norm_num)

theorem foldl_processBlock_lt :
    ∀ (l : List (List Nat)) (st : Nat × Nat × Nat × Nat),
      st.1 < 4294967296 → st.2.1 < 4294967296 → st.2.2.1 < 4294967296 →
      st.2.2.2 < 4294967296 →
      (l.foldl processBlock st).1 < 4294967296
    ∧ (l.foldl processBlock st).2.1 < 4294967296
    ∧ (l.foldl processBlock st).2.2.1 < 4294967296
    ∧ (l.foldl processBlock st).2.2.2 < 4294967296
  | [], _, h1, h2, h3, h4 => ⟨h1, h2, h3, h4⟩
  | b :: bs, st, _, _, _, _ => by
      have h := processBlock_lt st b
      simpa using
        foldl_processBlock_lt bs (processBlock st b) h.1 h.2.1 h.2.2.1 h.2.2.2

theorem md5digest_lt (m : List Nat) :
    (md5digest m).1 < 4294967296 ∧ (md5digest m).2.1 < 4294967296
  ∧ (md5digest m).2.2.1 < 4294967296 ∧ (md5digest m).2.2.2 < 4294967296 :=
  foldl_processBlock_lt (chunks64 (padMsg m)) md5Init (by decide) (by decide)
    (by decide) (by decide)

theorem md5hex_eq_renderDigest (m : List Nat) :
    md5hex m = renderDigest (md5digestFin m) := by
  obtain ⟨h1, h2, h3, h4⟩ := md5digest_lt m
  unfold md5hex md5bytes renderDigest md5digestFin fin32
  simp only [Nat.mod_eq_of_lt h1, Nat.mod_eq_of_lt h2, Nat.mod_eq_of_lt h3,
    Nat.mod_eq_of_lt h4]

theorem md5hex_collision :
    ∃ P1 P2 : List Nat, (∀ b ∈ P1, b < 256) ∧ (∀ b ∈ P2, b < 256)
      ∧ P1 ≠ P2 ∧ md5hex P1 = md5hex P2 := by
  obtain ⟨m, n, hmn, heq⟩ :=
    Finite.exists_ne_map_eq_of_infinite
      (fun k : ℕ => md5digestFin (List.replicate k 0))
  refine ⟨List.replicate m 0, List.replicate n 0, ?_, ?_, ?_, ?_⟩
  · intro b hb; rw [List.eq_of_mem_replicate hb]; norm_num
  · intro b hb; rw [List.eq_of_mem_replicate hb]; norm_num
  · intro hrep
    exact hmn (by simpa using congrArg List.length hrep)
  · rw [md5hex_eq_renderDigest, md5hex_eq_renderDigest]
    exact congrArg renderDigest heq

/-- C8 as stated is false: the fingerprint is an MD5 hexdigest, whose range
has only `2^128` values, so it cannot be injective on unbounded byte
payloads — there exist two distinct valid byte payloads with the same
fingerprint (classical pigeonhole; no explicit collision pair is
exhibited). -/
theorem C8_counterexample :
    ¬ ∀ P1 P2 : List Nat, (∀ b ∈ P1, b < 256) → (∀ b ∈ P2, b < 256) →
        P1 ≠ P2 → md5hex P1 ≠ md5hex P2 := by
  intro H
  obtain ⟨P1, P2, h1, h2, hne, heq⟩ := md5hex_collision
  exact H P1 P2 h1 h2 hne heq

/-- C8 amended: the fingerprint is deterministic — it depends only on the
byte content — but it is not injective: some two distinct byte payloads
share a fingerprint, because the digest range is finite. -/
theorem C8_deterministic_not_injective :
    (∀ P1 P2 : List Nat, P1 = P2 → md5hex P1 = md5hex P2)
  ∧ (∃ P1 P2 : List Nat, (∀ b ∈ P1, b < 256) ∧ (∀ b ∈ P2, b < 256)
      ∧ P1 ≠ P2 ∧ md5hex P1 = md5hex P2) :=
  ⟨fun _ _ h => by rw [h], md5hex_collision⟩

/-- Witness for C8's determinism conjunct at a concrete payload. -/
theorem C8_witness : md5hex [0] = md5hex [0] :=
  C8_deterministic_not_injective.1 [0] [0] rfl

/-- C10: `find_user_by_id` returns `None` rather than raising when the
database connection raises, when the id is not a valid ObjectId, or when
`find_one` raises; and a request that passes the origin, header, token and
payload checks is answered `401` with `User does not exist` — not a 5xx —
when the user store is unreachable. -/
theorem C10_user_lookup_never_500 :
    (∀ (W : Env) (uid e : String), W.dbConnect = Except.error e →
        find_user_by_id W uid = none)
  ∧ (∀ (W : Env) (uid : String), W.dbConnect = Except.ok () →
        W.objectIdOk uid = false → find_user_by_id W uid = none)
  ∧ (∀ (W : Env) (uid e : String), W.dbConnect = Except.ok () →
        W.findOne uid = Except.error e → find_user_by_id W uid = none)
  ∧ (∀ (E : Oracles) (W : Env) (o ah tok : String) (payload : Doc)
        (uid e fn : String) (c : List Nat) (st : St),
        o ∈ origins → o ≠ "" → ah ≠ "" →
        (pySplit ' ' ah)[1]? = some tok → tok ≠ "" →
        W.verifyTok tok = Except.ok payload →
        docLookup "userId" payload = some uid → uid ≠ "" →
        W.dbConnect = Except.error e →
        upload_resume E W (some o) (some ah) fn c st
          = Except.error ⟨401, "User does not exist"⟩) := by
  have hdbnone : ∀ (W : Env) (uid e : String),
      W.dbConnect = Except.error e → find_user_by_id W uid = none := by
    intro W uid e hdb
    unfold find_user_by_id find_user_body
    simp only [hdb]
  refine ⟨hdbnone, ?_, ?_, ?_⟩
  · intro W uid hdb hoid
    simp [find_user_by_id, find_user_body, hdb, hoid]
  · intro W uid e hdb hfo
    by_cases hoid : W.objectIdOk uid = false
    · simp [find_user_by_id, find_user_body, hdb, hoid]
    · simp [find_user_by_id, find_user_body, hdb, hoid, hfo]
  · intro E W o ah tok payload uid e fn c st ho ho2 hah hsplit htok hv huid
      huid2 hdb
    have hcont : origins.contains o = true := by
      exact List.elem_eq_true_of_mem ho
    have hfu := hdbnone W uid e hdb
    unfold upload_resume
    simp [hcont, ho2, hah, hsplit, htok, hv, huid, huid2, hfu]
    exact ho

/-- Witness for C10: a concrete raising database, an invalid ObjectId, a
raising `find_one`, and a request that reaches the user check while the
database is down and is answered 401. -/
theorem C10_witness :
    find_user_by_id tWDbDown "u1" = none
  ∧ find_user_by_id tWBadOid "u1" = none
  ∧ find_user_by_id tWFindRaise "u1" = none
  ∧ upload_resume tE tWDbDown (some "http://localhost:5173")
      (some "Bearer tok") "cv.pdf" [] st0
      = Except.error ⟨401, "User does not exist"⟩ :=
  ⟨C10_user_lookup_never_500.1 tWDbDown "u1" "ServerSelectionTimeoutError"
     rfl,
   C10_user_lookup_never_500.2.1 tWBadOid "u1" rfl rfl,
   C10_user_lookup_never_500.2.2.1 tWFindRaise "u1" "OperationFailure" rfl
     rfl,
   C10_user_lookup_never_500.2.2.2 tE tWDbDown "http://localhost:5173"
     "Bearer tok" "tok" [("userId", "u1")] "u1"
     "ServerSelectionTimeoutError" "cv.pdf" [] st0 (by decide) (by decide)
     (by decide) (by decide) (by decide) rfl rfl (by decide) rfl⟩

end Jobstack
